import Mathlib

/-!
Verification of the multi-tenant notes API (notesflow-pro-backend).

This file shallowly embeds the data model and the operations of the
repository:

* `src/src/models/Note.js`, `src/src/models/User.js` (Note, User, Tenant
  schemas) become Lean structures; the Mongo document store becomes an
  explicit `List` of documents passed to and returned from each operation.
* `src/src/services/notesService.js` (`NotesService`) becomes the
  `NotesService` namespace: `createNote`, `getNotes`, `getNoteById`,
  `updateNote`, `deleteNote`, `checkNoteLimit`.
* `src/src/middleware/subscriptionCheck.js` middleware `checkNoteLimit`
  becomes `SubscriptionCheck.checkNoteLimit` (it carries the
  `current_count`/`limit` fields of the 403 response body).
* `src/src/middleware/auth.js` `authenticate` and `src/src/utils/jwt.js`
  `extractTokenFromHeader` become `Auth.authenticate` and
  `Jwt.extractTokenFromHeader`; token verification is a parameter
  (an opaque `verify : String → Option Claims`, as the spec treats it).
* `TenantService.upgradeSubscription` and `AuthService.login`
  (services file) become `TenantService.upgradeSubscription` and
  `AuthService.login`.
* The express notes router handler for `GET /` (routes file) becomes
  `Routes.listNotesHandler`, with `express-validator`'s
  `paginationValidation` as a boolean gate and JS `parseInt(x) || d`
  as `Routes.parseIntOrDefault`.

Mongo semantics used: `findOne` returns the first matching document in
store order; `findOneAndUpdate` applies a `$set` of the update-document's
schema fields to the first matching document (`new: true` returns the
updated document); `countDocuments` counts matches.  MongoDB ObjectIds
are modelled as `Nat`; timestamps as `Nat`.
-/

/-- Subscription plan enum of the tenant schema (`enum: ['free','pro']`). -/
inductive Plan where
  | free
  | pro
deriving DecidableEq, Repr

/-- Role enum of the user schema (`enum: ['admin','member']`). -/
inductive Role where
  | admin
  | member
deriving DecidableEq, Repr

/-- Tenant document (`tenantSchema` in the models file): slug, name,
subscription plan, note quota (`-1` is the unlimited sentinel, hence `Int`),
active flag. -/
structure Tenant where
  id : Nat
  slug : String
  name : String
  subscription_plan : Plan
  note_limit : Int
  is_active : Bool
deriving DecidableEq, Repr

/-- User document (`userSchema`): owning tenant, email (stored lowercased
by the schema), role, active flag.  The password digest is outside the
claims' scope and omitted. -/
structure User where
  id : Nat
  tenant_id : Nat
  email : String
  role : Role
  is_active : Bool
deriving DecidableEq, Repr

/-- Note document (`noteSchema`): owning tenant and user, title, content,
tags, archived flag, soft-delete flag, timestamps. -/
structure Note where
  id : Nat
  tenant_id : Nat
  user_id : Nat
  title : String
  content : String
  tags : List String
  is_archived : Bool
  is_deleted : Bool
  created_at : Nat
  updated_at : Nat
deriving DecidableEq, Repr

/-- Errors thrown by the services (`ERROR_MESSAGES` in constants):
`NOTE.NOT_FOUND`, `TENANT.NOT_FOUND`, `NOTE.LIMIT_EXCEEDED`. -/
inductive NoteErr where
  | notFound
  | tenantNotFound
  | limitExceeded
deriving DecidableEq, Repr

namespace StoreOps

/-- Mongo `findOneAndUpdate(query, upd, {new:true})`: locate the first
document matching `p`, replace it by `f` of it, and return the updated
document together with the updated store; `none` when nothing matches. -/
def findOneAndUpdate {α : Type} (p : α → Bool) (f : α → α) :
    List α → Option (α × List α)
  | [] => none
  | n :: rest =>
    if p n then some (f n, f n :: rest)
    else
      match findOneAndUpdate p f rest with
      | some (m, rest') => some (m, n :: rest')
      | none => none

theorem findOneAndUpdate_eq_none {α : Type} {p : α → Bool} {f : α → α}
    {l : List α} (h : ∀ x ∈ l, p x = false) :
    findOneAndUpdate p f l = none := by
  induction l with
  | nil => rfl
  | cons n rest ih =>
    have hn : p n = false := h n (List.mem_cons_self n rest)
    have hrest : findOneAndUpdate p f rest = none :=
      ih fun x hx => h x (List.mem_cons_of_mem n hx)
    simp [findOneAndUpdate, hn, hrest]

theorem findOneAndUpdate_eq_some {α : Type} {p : α → Bool} {f : α → α}
    {l : List α} {m : α} {l' : List α}
    (h : findOneAndUpdate p f l = some (m, l')) :
    ∃ l₁ x l₂, l = l₁ ++ x :: l₂ ∧ p x = true ∧ m = f x ∧
      l' = l₁ ++ f x :: l₂ := by
  induction l generalizing m l' with
  | nil => simp [findOneAndUpdate] at h
  | cons n rest ih =>
    by_cases hn : p n = true
    · refine ⟨[], n, rest, rfl, hn, ?_, ?_⟩ <;>
        · simp [findOneAndUpdate, hn] at h
          simp [h.1.symm, h.2.symm]
    · simp [findOneAndUpdate, Bool.of_not_eq_true hn] at h
      match hrec : findOneAndUpdate p f rest with
      | none => rw [hrec] at h; simp at h
      | some (m₂, rest') =>
        rw [hrec] at h
        simp at h
        obtain ⟨hm₂, hl'⟩ := h
        subst hm₂
        obtain ⟨l₁, x, l₂, hl, hp, hm, hr⟩ := ih hrec
        exact ⟨n :: l₁, x, l₂, by simp [hl], hp, hm, by simp [← hl', hr]⟩

/-- When the unique document of the store with the queried id matches,
`findOneAndUpdate` updates exactly that document. -/
theorem findOneAndUpdate_of_unique {α : Type} {p : α → Bool} {f : α → α}
    {l : List α} {N : α} (hmem : N ∈ l) (hp : p N = true)
    (huniq : ∀ m ∈ l, p m = true → m = N) :
    ∃ l₁ l₂, l = l₁ ++ N :: l₂ ∧
      findOneAndUpdate p f l = some (f N, l₁ ++ f N :: l₂) := by
  induction l with
  | nil => simp at hmem
  | cons n rest ih =>
    by_cases hn : p n = true
    · have : n = N := huniq n (List.mem_cons_self n rest) hn
      subst this
      exact ⟨[], rest, rfl, by simp [findOneAndUpdate, hn]⟩
    · have hmem' : N ∈ rest := by
        rcases List.mem_cons.mp hmem with h | h
        · exact absurd (h ▸ hp) hn
        · exact h
      obtain ⟨l₁, l₂, hl, hres⟩ :=
        ih hmem' fun m hm hpm => huniq m (List.mem_cons_of_mem n hm) hpm
      exact ⟨n :: l₁, l₂, by simp [hl],
        by simp [findOneAndUpdate, Bool.of_not_eq_true hn, hres]⟩

/-- `find?` returns the unique matching element. -/
theorem find?_of_unique {α : Type} {p : α → Bool} {l : List α} {N : α}
    (hmem : N ∈ l) (hp : p N = true)
    (huniq : ∀ m ∈ l, p m = true → m = N) :
    l.find? p = some N := by
  induction l with
  | nil => simp at hmem
  | cons n rest ih =>
    by_cases hn : p n = true
    · have hn' : n = N := huniq n (List.mem_cons_self n rest) hn
      subst hn'
      simp [List.find?, hn]
    · have hmem' : N ∈ rest := by
        rcases List.mem_cons.mp hmem with h | h
        · exact absurd (h ▸ hp) hn
        · exact h
      have := ih hmem' fun m hm hpm => huniq m (List.mem_cons_of_mem n hm) hpm
      simp [List.find?, Bool.of_not_eq_true hn, this]

end StoreOps

/-- Case-insensitive prefix test on character lists (helper for the
`$regex ... $options:'i'` match below). -/
def prefAux : List Char → List Char → Bool
  | [], _ => true
  | _ :: _, [] => false
  | c :: cs, d :: ds => c == d && prefAux cs ds

/-- Substring occurrence test on character lists. -/
def subAux (pat : List Char) : List Char → Bool
  | [] => prefAux pat []
  | c :: cs => prefAux pat (c :: cs) || subAux pat cs

/-- JS `String.prototype.toLowerCase` / Mongoose `lowercase: true`
normalisation (character-wise lowering). -/
def toLowerStr (s : String) : String :=
  String.mk (s.data.map Char.toLower)

/-- `new RegExp(search, 'i').test(s)` / `{$regex: search, $options: 'i'}`
for a literal (metacharacter-free) search string: case-insensitive
substring containment. -/
def iRegexMatch (pat s : String) : Bool :=
  subAux (toLowerStr pat).data (toLowerStr s).data

/-- The `data` object accepted by `createNote` (request body).  Mongoose
applies every schema field present in the payload, so a payload may carry
its own `tenant_id`/`user_id`; `new Note({...noteData, user_id, tenant_id})`
spreads the payload FIRST and then writes the explicit parameters, so the
parameters win. -/
structure NoteData where
  title : String
  content : String
  tags : List String := []
  tenant_id : Option Nat := none
  user_id : Option Nat := none
deriving DecidableEq, Repr

/-- The note constructed by `new Note({...noteData, user_id: userId,
tenant_id: tenantId})` in `NotesService.createNote`: payload fields are
spread first, then `user_id`/`tenant_id` are set from the parameters
(overriding any payload values); flags default to `false` and timestamps
to now (`newId` is the fresh ObjectId). -/
def buildNote (d : NoteData) (userId tenantId : Nat) (newId now : Nat) : Note :=
  { id := newId
    tenant_id := tenantId
    user_id := userId
    title := d.title
    content := d.content
    tags := d.tags
    is_archived := false
    is_deleted := false
    created_at := now
    updated_at := now }

/-- The update document passed to `findOneAndUpdate` in
`NotesService.updateNote`.  The notes router PUT handler forwards
`req.body` unfiltered, so any schema field may be present; a present field
is `$set` on the matched document. -/
structure UpdateData where
  title : Option String := none
  content : Option String := none
  tags : Option (List String) := none
  is_archived : Option Bool := none
  tenant_id : Option Nat := none
  user_id : Option Nat := none
deriving DecidableEq, Repr

/-- Mongoose's application of `{ ...updateData, updated_at: new Date() }`
as a `$set` on a matched note: every field present in the update document
overwrites the stored field, and `updated_at` is refreshed. -/
def applyUpdateData (d : UpdateData) (now : Nat) (n : Note) : Note :=
  { n with
    title := d.title.getD n.title
    content := d.content.getD n.content
    tags := d.tags.getD n.tags
    is_archived := d.is_archived.getD n.is_archived
    tenant_id := d.tenant_id.getD n.tenant_id
    user_id := d.user_id.getD n.user_id
    updated_at := now }

/-- The query `{_id: noteId, tenant_id: tenantId, is_deleted: false}` with
the optional `user_id` member restriction, shared by `getNoteById`,
`updateNote` and `deleteNote`. -/
def noteQueryMatches (noteId tenantId : Nat) (userId : Option Nat)
    (n : Note) : Bool :=
  n.id == noteId && n.tenant_id == tenantId && n.is_deleted == false &&
    (match userId with
     | none => true
     | some u => n.user_id == u)

/-- `Note.countDocuments({tenant_id, is_deleted: false})`. -/
def countNotes (store : List Note) (tenantId : Nat) : Nat :=
  (store.filter fun n => n.tenant_id == tenantId && n.is_deleted == false).length

/-- Query options of `NotesService.getNotes` (defaults as in the JS
destructuring: `page = 1, limit = 10, search = '', user_id = null,
archived = false`). -/
structure ListOptions where
  page : Int := 1
  limit : Int := 10
  search : String := ""
  user_id : Option Nat := none
  archived : Bool := false
deriving DecidableEq, Repr

/-- The listing query built by `getNotes`:
`{tenant_id, is_deleted: false, is_archived: archived}`, plus `user_id`
when given, plus the `$or` search over title/content/tags when `search`
is non-empty (empty string is falsy in JS, so no search clause). -/
def listQueryMatches (tenantId : Nat) (o : ListOptions) (n : Note) : Bool :=
  n.tenant_id == tenantId && n.is_deleted == false &&
    n.is_archived == o.archived &&
    (match o.user_id with
     | none => true
     | some u => n.user_id == u) &&
    (o.search == "" || iRegexMatch o.search n.title ||
      iRegexMatch o.search n.content ||
      n.tags.any fun t => iRegexMatch o.search t)

/-- The comparison of `.sort({created_at: -1})`: creation time descending,
and nothing else — no secondary key, so two notes with equal `created_at`
compare equal under it. -/
def createdDesc (a b : Note) : Prop := b.created_at ≤ a.created_at

instance : DecidableRel createdDesc := fun a b => Nat.decLe _ _

instance : IsTotal Note createdDesc :=
  ⟨fun a b => Nat.le_total b.created_at a.created_at⟩

instance : IsTrans Note createdDesc :=
  ⟨fun _ _ _ h1 h2 => le_trans h2 h1⟩

namespace NotesService

/-- `NotesService.getNotes` (the `notes` array of the response): filter by
the tenant-scoped query, sort with the `{created_at: -1}` comparison
(MongoDB promises nothing beyond the comparison for tied keys; a
comparison sort realizes it), then `.skip((page-1)*limit).limit(limit)`. -/
def getNotes (store : List Note) (tenantId : Nat) (o : ListOptions) :
    List Note :=
  (List.insertionSort createdDesc (store.filter (listQueryMatches tenantId o))).drop
      ((o.page - 1) * o.limit).toNat |>.take o.limit.toNat

/-- `NotesService.getNoteById`: `findOne` on the scoped query; `null` result
throws `NOTE.NOT_FOUND`. -/
def getNoteById (store : List Note) (noteId tenantId : Nat)
    (userId : Option Nat) : Except NoteErr Note :=
  match store.find? (noteQueryMatches noteId tenantId userId) with
  | some n => .ok n
  | none => .error .notFound

/-- `NotesService.updateNote`: `findOneAndUpdate` on the scoped query with
`{...updateData, updated_at: now}` (`new: true`); a miss throws
`NOTE.NOT_FOUND` and leaves the store untouched.  Returns the outcome
together with the resulting store. -/
def updateNote (store : List Note) (noteId : Nat) (updateData : UpdateData)
    (tenantId : Nat) (userId : Option Nat) (now : Nat) :
    Except NoteErr Note × List Note :=
  match StoreOps.findOneAndUpdate (noteQueryMatches noteId tenantId userId)
      (applyUpdateData updateData now) store with
  | some (m, store') => (.ok m, store')
  | none => (.error .notFound, store)

/-- `NotesService.deleteNote` (soft delete): `findOneAndUpdate` on the
scoped query with `{is_deleted: true, updated_at: now}`; a miss throws
`NOTE.NOT_FOUND`. -/
def deleteNote (store : List Note) (noteId tenantId : Nat)
    (userId : Option Nat) (now : Nat) :
    Except NoteErr Unit × List Note :=
  match StoreOps.findOneAndUpdate (noteQueryMatches noteId tenantId userId)
      (fun n => { n with is_deleted := true, updated_at := now }) store with
  | some (_, store') => (.ok (), store')
  | none => (.error .notFound, store)

/-- `NotesService.checkNoteLimit`: load the tenant (missing →
`TENANT.NOT_FOUND`); Pro plans skip the check; otherwise count non-deleted
notes and throw `NOTE.LIMIT_EXCEEDED` when `noteCount >= tenant.note_limit`. -/
def checkNoteLimit (tenants : List Tenant) (store : List Note)
    (tenantId : Nat) : Except NoteErr Unit :=
  match tenants.find? (fun t => t.id == tenantId) with
  | none => .error .tenantNotFound
  | some tenant =>
    if tenant.subscription_plan == Plan.pro then .ok ()
    else if tenant.note_limit ≤ (countNotes store tenantId : Int) then
      .error .limitExceeded
    else .ok ()

/-- `NotesService.createNote`: run `checkNoteLimit` first, then persist the
note built from the payload with `user_id`/`tenant_id` stamped from the
parameters.  Returns the outcome and the resulting store. -/
def createNote (tenants : List Tenant) (store : List Note)
    (noteData : NoteData) (userId tenantId : Nat) (newId now : Nat) :
    Except NoteErr Note × List Note :=
  match checkNoteLimit tenants store tenantId with
  | .error e => (.error e, store)
  | .ok _ =>
    let note := buildNote noteData userId tenantId newId now
    (.ok note, store ++ [note])

end NotesService

namespace SubscriptionCheck

/-- Outcome of the `checkNoteLimit` middleware in
`src/src/middleware/subscriptionCheck.js`: `allowed` is `next()`;
`limitExceeded` is the 403 body, carrying its `current_count` and `limit`
fields; `tenantNotFound` is the 400 for a missing tenant. -/
inductive LimitResult where
  | allowed
  | limitExceeded (current_count : Nat) (limit : Int)
  | tenantNotFound
deriving DecidableEq, Repr

/-- Middleware `checkNoteLimit`: load the tenant; Pro subscribers skip the
check; otherwise count the tenant's non-deleted notes and respond 403 with
`current_count: noteCount, limit: tenant.note_limit` when
`noteCount >= tenant.note_limit`. -/
def checkNoteLimit (tenants : List Tenant) (store : List Note)
    (tenantId : Nat) : LimitResult :=
  match tenants.find? (fun t => t.id == tenantId) with
  | none => .tenantNotFound
  | some tenant =>
    if tenant.subscription_plan == Plan.pro then .allowed
    else if tenant.note_limit ≤ (countNotes store tenantId : Int) then
      .limitExceeded (countNotes store tenantId) tenant.note_limit
    else .allowed

end SubscriptionCheck

namespace Jwt

/-- `extractTokenFromHeader` in `src/src/utils/jwt.js`: the header must
start with the `Bearer ` scheme (`authHeader.startsWith('Bearer ')`), else
it throws; on success `substring(7)` strips the 7-character scheme. -/
def extractTokenFromHeader (authHeader : String) : Except Unit String :=
  if prefAux "Bearer ".data authHeader.data then
    .ok (String.mk (authHeader.data.drop 7))
  else .error ()

end Jwt

/-- The JWT claims relevant to `authenticate`: `decoded.id` and
`decoded.tenant_id`. -/
structure Claims where
  id : Nat
  tenant_id : Nat
deriving DecidableEq, Repr

/-- The verified identity `req.user` set by `authenticate`. -/
structure Identity where
  id : Nat
  email : String
  role : Role
  tenant_id : Nat
  tenant_slug : String
  tenant_subscription : Plan
deriving DecidableEq, Repr

/-- The distinct 401 bodies of the `authenticate` middleware:
`tokenRequired` is `AUTH.TOKEN_REQUIRED`, `tokenInvalid` is
`AUTH.TOKEN_INVALID`, `invalidCredentials` is `AUTH.INVALID_CREDENTIALS`
(revoked/missing user), `invalidTenant` is `TENANT.INVALID_TENANT`. -/
inductive AuthErr where
  | tokenRequired
  | tokenInvalid
  | invalidCredentials
  | invalidTenant
deriving DecidableEq, Repr

namespace Auth

/-- The `authenticate` middleware of `src/src/middleware/auth.js`.
`verify` is the opaque Credential Verifier (`verifyToken`); `authHeader`
is `req.headers.authorization` (`none` = header absent; the JS
`if (!authHeader)` also treats the empty string as absent).  Steps: extract
the bearer token (failure → `TOKEN_INVALID`), verify it (failure →
`TOKEN_INVALID`), look up the active user by id and tenant id from the
claims, require the populated tenant to exist and be active, and produce
`req.user`. -/
def authenticate (verify : String → Option Claims) (users : List User)
    (tenants : List Tenant) (authHeader : Option String) :
    Except AuthErr Identity :=
  match authHeader with
  | none => .error .tokenRequired
  | some h =>
    if h == "" then .error .tokenRequired
    else
      match Jwt.extractTokenFromHeader h with
      | .error _ => .error .tokenInvalid
      | .ok token =>
        match verify token with
        | none => .error .tokenInvalid
        | some decoded =>
          match users.find? (fun u =>
              u.id == decoded.id && u.tenant_id == decoded.tenant_id &&
                u.is_active) with
          | none => .error .invalidCredentials
          | some user =>
            match tenants.find? (fun t => t.id == user.tenant_id) with
            | none => .error .invalidTenant
            | some tenant =>
              if tenant.is_active == false then .error .invalidTenant
              else .ok
                { id := user.id
                  email := user.email
                  role := user.role
                  tenant_id := user.tenant_id
                  tenant_slug := tenant.slug
                  tenant_subscription := tenant.subscription_plan }

end Auth

namespace AuthService

/-- The account-resolution step of `AuthService.login`:
`User.findOne({email: email.toLowerCase(), is_active: true})` — by email
alone, with no tenant qualifier. -/
def login (users : List User) (email : String) : Option User :=
  users.find? (fun u => u.email == toLowerStr email && u.is_active)

end AuthService

/-- The unique index declared on `email` alone in the user schema
(`email: { ..., unique: true }`): no two user documents share an email,
across all tenants. -/
def emailGloballyUnique (users : List User) : Prop :=
  users.Pairwise (fun u v => u.email ≠ v.email)

namespace TenantService

/-- Errors of `TenantService.upgradeSubscription`:
`AUTH.INSUFFICIENT_PERMISSIONS` and `TENANT.NOT_FOUND`. -/
inductive TenantErr where
  | insufficientPermissions
  | tenantNotFound
deriving DecidableEq, Repr

/-- The `data` object returned by `upgradeSubscription` (both on the
already-Pro path and after an upgrade): id, slug, name, plan, and the
`-1` unlimited sentinel for `note_limit`. -/
structure UpgradeData where
  id : Nat
  slug : String
  name : String
  subscription_plan : Plan
  note_limit : Int
deriving DecidableEq, Repr

/-- `tenantSchema.methods.upgradeToPro`: set the plan to `pro` and the
note limit to the `-1` unlimited sentinel. -/
def upgradeToPro (t : Tenant) : Tenant :=
  { t with subscription_plan := Plan.pro, note_limit := -1 }

/-- Persisting `tenant.save()`: replace the document with the same id. -/
def saveTenant (tenants : List Tenant) (t' : Tenant) : List Tenant :=
  tenants.map fun t => if t.id == t'.id then t' else t

/-- `TenantService.upgradeSubscription`: require an active admin user of
`userTenantId`; find the tenant by slug; require it to be the caller's own
tenant; if it is already Pro, succeed with the current state and the `-1`
sentinel without saving; otherwise `upgradeToPro` and save.  Returns the
resulting tenant store together with the response `data`. -/
def upgradeSubscription (users : List User) (tenants : List Tenant)
    (tenantSlug : String) (userId userTenantId : Nat) :
    Except TenantErr (List Tenant × UpgradeData) :=
  match users.find? (fun u =>
      u.id == userId && u.tenant_id == userTenantId &&
        u.role == Role.admin && u.is_active) with
  | none => .error .insufficientPermissions
  | some _ =>
    match tenants.find? (fun t => t.slug == tenantSlug) with
    | none => .error .tenantNotFound
    | some tenant =>
      if tenant.id != userTenantId then .error .insufficientPermissions
      else if tenant.subscription_plan == Plan.pro then
        .ok (tenants,
          { id := tenant.id
            slug := tenant.slug
            name := tenant.name
            subscription_plan := tenant.subscription_plan
            note_limit := -1 })
      else
        let t' := upgradeToPro tenant
        .ok (saveTenant tenants t',
          { id := t'.id
            slug := t'.slug
            name := t'.name
            subscription_plan := t'.subscription_plan
            note_limit := -1 })

end TenantService

namespace Routes

/-- `req.user.role === ROLES.MEMBER ? req.user.id : null` — the owner
scoping applied by every note route handler: members are restricted to
their own notes, admins pass `null` (no owner filter at all). -/
def roleScope (role : Role) (uid : Nat) : Option Nat :=
  if role == Role.member then some uid else none

/-- `parseInt(q) || d` on an integer-valued query parameter: absent (or
unparsable, i.e. `NaN`) and `0` are falsy and give the default; any other
integer — including negatives and values above 100 — is used as-is. -/
def parseIntOrDefault (d : Int) (q : Option Int) : Int :=
  match q with
  | none => d
  | some v => if v == 0 then d else v

/-- `paginationValidation` of `src/utils/validation`: `page`, when present,
must be an integer ≥ 1; `limit`, when present, an integer in [1,100].
Violations make `validationResult` non-empty and the handler responds
400 before touching the service. -/
def paginationValidationOk (pageQ limitQ : Option Int) : Bool :=
  (match pageQ with
   | none => true
   | some p => 1 ≤ p) &&
  (match limitQ with
   | none => true
   | some l => 1 ≤ l && l ≤ 100)

/-- The handler's failure mode relevant here: the 400 `Validation failed`
response. -/
inductive HandlerErr where
  | validationFailed
deriving DecidableEq, Repr

/-- The effective options built by the `GET /api/notes` route handler:
`page: parseInt(req.query.page) || 1, limit: parseInt(req.query.limit) || 10`,
plus the member owner scope.  No clamping is applied here. -/
def routerListOptions (pageQ limitQ : Option Int) (search : String)
    (archived : Bool) (role : Role) (uid : Nat) : ListOptions :=
  { page := parseIntOrDefault 1 pageQ
    limit := parseIntOrDefault 10 limitQ
    search := search
    user_id := roleScope role uid
    archived := archived }

/-- The `GET /api/notes` route handler: run `paginationValidation`, then
call `NotesService.getNotes` with the options above. -/
def listNotesHandler (store : List Note) (tenantId : Nat) (role : Role)
    (uid : Nat) (pageQ limitQ : Option Int) (search : String)
    (archived : Bool) : Except HandlerErr (List Note) :=
  if paginationValidationOk pageQ limitQ = false then
    .error .validationFailed
  else
    .ok (NotesService.getNotes store tenantId
      (routerListOptions pageQ limitQ search archived role uid))

end Routes

/-- C1: tenant isolation.  For a verified identity of tenant `T` and a
stored note of tenant `T' ≠ T` (ids being unique in the store): no listing
call as that identity returns the note; `getNoteById`, `updateNote` and
`deleteNote` with tenant id `T` on the note's id answer `NOTE.NOT_FOUND`
and leave the store unchanged; and every note persisted by `createNote`
carries the `tenant_id`/`user_id` parameters of the call, whatever
`tenant_id`/`user_id` fields the payload itself holds. -/
theorem C1_tenant_isolation
    (store : List Note) (T T' : Nat) (n : Note)
    (hmem : n ∈ store) (hT' : n.tenant_id = T') (hne : T' ≠ T)
    (huniq : ∀ m ∈ store, m.id = n.id → m = n) :
    (∀ o : ListOptions, n ∉ NotesService.getNotes store T o) ∧
    (∀ uid, NotesService.getNoteById store n.id T uid = .error .notFound) ∧
    (∀ d uid now,
      NotesService.updateNote store n.id d T uid now = (.error .notFound, store)) ∧
    (∀ uid now,
      NotesService.deleteNote store n.id T uid now = (.error .notFound, store)) ∧
    (∀ tenants st d userId tenantId newId now note st',
      NotesService.createNote tenants st d userId tenantId newId now =
        (.ok note, st') →
      note.tenant_id = tenantId ∧ note.user_id = userId ∧
        st' = st ++ [note]) := by
  have hq : ∀ uid : Option Nat, ∀ m ∈ store,
      noteQueryMatches n.id T uid m = false := by
    intro uid m hm
    rw [Bool.eq_false_iff]
    intro hp
    simp only [noteQueryMatches, Bool.and_eq_true, beq_iff_eq] at hp
    obtain ⟨⟨⟨h1, h2⟩, -⟩, -⟩ := hp
    have hmn := huniq m hm h1
    rw [hmn] at h2
    exact hne (hT'.symm.trans h2)
  refine ⟨?_, ?_, ?_, ?_, ?_⟩
  · intro o hmemGet
    unfold NotesService.getNotes at hmemGet
    have hsub :
        ((List.insertionSort createdDesc
            (store.filter (listQueryMatches T o))).drop
              ((o.page - 1) * o.limit).toNat |>.take o.limit.toNat).Sublist
          (List.insertionSort createdDesc
            (store.filter (listQueryMatches T o))) :=
      (List.take_sublist _ _).trans (List.drop_sublist _ _)
    have h2 : n ∈ store.filter (listQueryMatches T o) :=
      (List.mem_insertionSort _).mp (hsub.subset hmemGet)
    have h3 := (List.mem_filter.mp h2).2
    simp only [listQueryMatches, Bool.and_eq_true, beq_iff_eq] at h3
    exact hne (hT'.symm.trans h3.1.1.1.1)
  · intro uid
    have hfind : store.find? (noteQueryMatches n.id T uid) = none :=
      List.find?_eq_none.mpr fun x hx => by simp [hq uid x hx]
    simp [NotesService.getNoteById, hfind]
  · intro d uid now
    have hnone := StoreOps.findOneAndUpdate_eq_none
      (f := applyUpdateData d now) (hq uid)
    simp [NotesService.updateNote, hnone]
  · intro uid now
    have hnone := StoreOps.findOneAndUpdate_eq_none
      (f := fun n => { n with is_deleted := true, updated_at := now })
      (hq uid)
    simp [NotesService.deleteNote, hnone]
  · intro tenants st d userId tenantId newId now note st' h
    unfold NotesService.createNote at h
    cases hchk : NotesService.checkNoteLimit tenants st tenantId with
    | error e => rw [hchk] at h; simp at h
    | ok u =>
      rw [hchk] at h
      simp only [Prod.mk.injEq, Except.ok.injEq] at h
      obtain ⟨hnote, hst⟩ := h
      subst hnote
      exact ⟨rfl, rfl, hst.symm⟩

/-- Concrete stored note of tenant 2 used to witness C1. -/
def wNote : Note :=
  { id := 10, tenant_id := 2, user_id := 7, title := "t", content := "c",
    tags := [], is_archived := false, is_deleted := false,
    created_at := 1, updated_at := 1 }

/-- C1 witness: a tenant-1 read of the tenant-2 note yields `NOT_FOUND`. -/
theorem C1_tenant_isolation_witness :
    NotesService.getNoteById [wNote] wNote.id 1 none = .error .notFound :=
  (C1_tenant_isolation [wNote] 1 2 wNote (List.mem_singleton.mpr rfl) rfl
    (by decide) (fun m hm _ => List.mem_singleton.mp hm)).2.1 none

/-- C2: same-tenant ownership.  For a non-deleted note `N` owned by `U1`
in tenant `T` (ids unique in the store) and a same-tenant identity
`U2 ≠ U1`: with the member scope (`userId = U2`) get/update/delete answer
`NOTE.NOT_FOUND` and leave the store unchanged; with the admin scope
(`userId = null`, the owner filter omitted entirely) the same operations
succeed. -/
theorem C2_same_tenant_ownership
    (store : List Note) (N : Note) (T U1 U2 : Nat)
    (hmem : N ∈ store) (hdel : N.is_deleted = false)
    (hT : N.tenant_id = T) (hU : N.user_id = U1) (hne : U2 ≠ U1)
    (huniq : ∀ m ∈ store, m.id = N.id → m = N) :
    (NotesService.getNoteById store N.id T (Routes.roleScope Role.member U2) =
      .error .notFound) ∧
    (∀ d now, NotesService.updateNote store N.id d T
      (Routes.roleScope Role.member U2) now = (.error .notFound, store)) ∧
    (∀ now, NotesService.deleteNote store N.id T
      (Routes.roleScope Role.member U2) now = (.error .notFound, store)) ∧
    (NotesService.getNoteById store N.id T (Routes.roleScope Role.admin U2) =
      .ok N) ∧
    (∀ d now, (NotesService.updateNote store N.id d T
      (Routes.roleScope Role.admin U2) now).1 =
        .ok (applyUpdateData d now N)) ∧
    (∀ now, (NotesService.deleteNote store N.id T
      (Routes.roleScope Role.admin U2) now).1 = .ok ()) := by
  have hscopeM : Routes.roleScope Role.member U2 = some U2 := rfl
  have hscopeA : Routes.roleScope Role.admin U2 = none := rfl
  have hqM : ∀ m ∈ store, noteQueryMatches N.id T (some U2) m = false := by
    intro m hm
    rw [Bool.eq_false_iff]
    intro hp
    simp only [noteQueryMatches, Bool.and_eq_true, beq_iff_eq] at hp
    obtain ⟨⟨⟨h1, -⟩, -⟩, h4⟩ := hp
    have hmn := huniq m hm h1
    rw [hmn] at h4
    exact hne (h4.symm.trans hU)
  have hpN : noteQueryMatches N.id T none N = true := by
    simp [noteQueryMatches, hT, hdel]
  have hquniq : ∀ m ∈ store, noteQueryMatches N.id T none m = true → m = N := by
    intro m hm hp
    simp only [noteQueryMatches, Bool.and_eq_true, beq_iff_eq] at hp
    exact huniq m hm hp.1.1.1
  refine ⟨?_, ?_, ?_, ?_, ?_, ?_⟩
  · have hfind : store.find? (noteQueryMatches N.id T (some U2)) = none :=
      List.find?_eq_none.mpr fun x hx => by simp [hqM x hx]
    simp [NotesService.getNoteById, hscopeM, hfind]
  · intro d now
    have hnone := StoreOps.findOneAndUpdate_eq_none
      (f := applyUpdateData d now) hqM
    simp [NotesService.updateNote, hscopeM, hnone]
  · intro now
    have hnone := StoreOps.findOneAndUpdate_eq_none
      (f := fun n => { n with is_deleted := true, updated_at := now }) hqM
    simp [NotesService.deleteNote, hscopeM, hnone]
  · have hfind := StoreOps.find?_of_unique hmem hpN hquniq
    simp [NotesService.getNoteById, hscopeA, hfind]
  · intro d now
    obtain ⟨l₁, l₂, -, hres⟩ := StoreOps.findOneAndUpdate_of_unique
      (f := applyUpdateData d now) hmem hpN hquniq
    simp [NotesService.updateNote, hscopeA, hres]
  · intro now
    obtain ⟨l₁, l₂, -, hres⟩ := StoreOps.findOneAndUpdate_of_unique
      (f := fun n => { n with is_deleted := true, updated_at := now })
      hmem hpN hquniq
    simp [NotesService.deleteNote, hscopeA, hres]

/-- Concrete note of tenant 1 owned by user 7, witnessing C2. -/
def w2Note : Note :=
  { id := 3, tenant_id := 1, user_id := 7, title := "t", content := "c",
    tags := [], is_archived := false, is_deleted := false,
    created_at := 1, updated_at := 1 }

/-- C2 witness: member 8 of the same tenant gets `NOT_FOUND` on note 3,
admin 8 reads it. -/
theorem C2_same_tenant_ownership_witness :
    NotesService.getNoteById [w2Note] w2Note.id 1
        (Routes.roleScope Role.member 8) = .error .notFound ∧
    NotesService.getNoteById [w2Note] w2Note.id 1
        (Routes.roleScope Role.admin 8) = .ok w2Note :=
  have h := C2_same_tenant_ownership [w2Note] w2Note 1 7 8
    (List.mem_singleton.mpr rfl) rfl rfl rfl (by decide)
    (fun m hm _ => List.mem_singleton.mp hm)
  ⟨h.1, h.2.2.2.1⟩

/-- The stored note used to exhibit the C3 mass-assignment divergence. -/
def c3Note : Note :=
  { id := 1, tenant_id := 1, user_id := 1, title := "t", content := "c",
    tags := [], is_archived := false, is_deleted := false,
    created_at := 1, updated_at := 1 }

/-- A PUT body carrying its own `tenant_id`/`user_id` fields — the live
notes router forwards `req.body` to `updateNote` unfiltered, and
`findOneAndUpdate` applies every schema field of the update document. -/
def c3Patch : UpdateData := { tenant_id := some 2, user_id := some 9 }

/-- C3: the code violates the frame the spec states.  `updateNote` applies
a payload's `tenant_id`/`user_id` fields: on a store holding the single
tenant-1 note, the update scoped to tenant 1 succeeds and rewrites
`tenant_id` to 2 and `user_id` to 9, so tenant id and user id do NOT stay
unchanged for every patch payload. -/
theorem C3_update_applies_payload_tenant :
    NotesService.updateNote [c3Note] 1 c3Patch 1 none 5 =
      (.ok { c3Note with tenant_id := 2, user_id := 9, updated_at := 5 },
       [{ c3Note with tenant_id := 2, user_id := 9, updated_at := 5 }]) ∧
    c3Note.tenant_id = 1 ∧
    ({ c3Note with tenant_id := 2, user_id := 9, updated_at := 5 } : Note).tenant_id = 2 :=
  ⟨rfl, rfl, rfl⟩

/-- C4: quota enforcement.  With the caller's tenant loaded: on the free
plan, whenever the non-deleted note count has reached the quota,
`createNote` is rejected with the `LIMIT_EXCEEDED` error and the store is
untouched, and the subscription middleware responds with
`current_count = count` and `limit = note_limit` — in particular
`used = L` and `limit = L` at the limit `L`; on the pro plan creation is
never rejected on quota grounds. -/
theorem C4_quota_enforcement
    (tenants : List Tenant) (store : List Note) (T : Nat) (t : Tenant)
    (hfind : tenants.find? (fun x => x.id == T) = some t) :
    (t.subscription_plan = Plan.free →
      t.note_limit ≤ (countNotes store T : Int) →
      (∀ d u newId now, NotesService.createNote tenants store d u T newId now =
        (.error .limitExceeded, store)) ∧
      SubscriptionCheck.checkNoteLimit tenants store T =
        .limitExceeded (countNotes store T) t.note_limit) ∧
    (∀ L : Nat, t.subscription_plan = Plan.free → t.note_limit = (L : Int) →
      countNotes store T = L →
      SubscriptionCheck.checkNoteLimit tenants store T =
        .limitExceeded L (L : Int)) ∧
    (t.subscription_plan = Plan.pro →
      (∀ d u newId now, NotesService.createNote tenants store d u T newId now =
        (.ok (buildNote d u T newId now),
         store ++ [buildNote d u T newId now])) ∧
      SubscriptionCheck.checkNoteLimit tenants store T = .allowed) := by
  refine ⟨?_, ?_, ?_⟩
  · intro hfree hle
    have hchk : NotesService.checkNoteLimit tenants store T =
        .error .limitExceeded := by
      simp [NotesService.checkNoteLimit, hfind, hfree, hle]
    refine ⟨?_, ?_⟩
    · intro d u newId now
      simp [NotesService.createNote, hchk]
    · simp [SubscriptionCheck.checkNoteLimit, hfind, hfree, hle]
  · intro L hfree hlim hcnt
    have hle : t.note_limit ≤ (countNotes store T : Int) := by
      rw [hlim, hcnt]
    simp [SubscriptionCheck.checkNoteLimit, hfind, hfree, hle, hcnt, hlim]
  · intro hpro
    have hchk : NotesService.checkNoteLimit tenants store T = .ok () := by
      simp [NotesService.checkNoteLimit, hfind, hpro]
    refine ⟨?_, ?_⟩
    · intro d u newId now
      simp [NotesService.createNote, hchk]
    · simp [SubscriptionCheck.checkNoteLimit, hfind, hpro]

/-- Free tenant 1 with quota 1, witnessing C4. -/
def c4Tenant : Tenant :=
  { id := 1, slug := "acme", name := "Acme", subscription_plan := Plan.free,
    note_limit := 1, is_active := true }

/-- The one existing note of tenant 1, filling its quota. -/
def c4Note : Note :=
  { id := 20, tenant_id := 1, user_id := 7, title := "t", content := "c",
    tags := [], is_archived := false, is_deleted := false,
    created_at := 1, updated_at := 1 }

/-- C4 witness: at quota 1 with 1 note stored, the next creation is
rejected with `LIMIT_EXCEEDED` and the store is unchanged. -/
theorem C4_quota_enforcement_witness :
    NotesService.createNote [c4Tenant] [c4Note]
        { title := "u", content := "v" } 7 1 21 2 =
      (.error .limitExceeded, [c4Note]) :=
  ((C4_quota_enforcement [c4Tenant] [c4Note] 1 c4Tenant rfl).1
    rfl (by decide)).1 { title := "u", content := "v" } 7 21 2

/-- C5: upgrade idempotence.  With an authorized caller (active admin of
`utid`) and the slug resolving to the caller's own tenant `t` already on
the pro plan: `upgradeSubscription` succeeds, returns the current state
with the `-1` unlimited sentinel, and leaves the tenant store unchanged;
hence a second upgrade on the returned store yields the same unlimited
response. -/
theorem C5_upgrade_idempotent
    (users : List User) (tenants : List Tenant) (slug : String)
    (uid utid : Nat) (w : User) (t : Tenant)
    (hauth : users.find? (fun u => u.id == uid && u.tenant_id == utid &&
      u.role == Role.admin && u.is_active) = some w)
    (hslug : tenants.find? (fun x => x.slug == slug) = some t)
    (hid : t.id = utid) (hpro : t.subscription_plan = Plan.pro) :
    TenantService.upgradeSubscription users tenants slug uid utid =
      .ok (tenants,
        { id := t.id, slug := t.slug, name := t.name,
          subscription_plan := Plan.pro, note_limit := -1 }) ∧
    (∀ ts d, TenantService.upgradeSubscription users tenants slug uid utid =
        .ok (ts, d) →
      TenantService.upgradeSubscription users ts slug uid utid =
        .ok (ts, d)) := by
  have hmain : TenantService.upgradeSubscription users tenants slug uid utid =
      .ok (tenants,
        { id := t.id, slug := t.slug, name := t.name,
          subscription_plan := Plan.pro, note_limit := -1 }) := by
    simp [TenantService.upgradeSubscription, hauth, hslug, hid, hpro]
  refine ⟨hmain, ?_⟩
  intro ts d h
  rw [hmain] at h
  simp only [Except.ok.injEq, Prod.mk.injEq] at h
  obtain ⟨hts, hd⟩ := h
  subst hts
  subst hd
  exact hmain

/-- The admin of tenant 5, witnessing C5. -/
def c5Admin : User :=
  { id := 1, tenant_id := 5, email := "admin@acme.test", role := Role.admin,
    is_active := true }

/-- Tenant 5, already on the pro plan. -/
def c5Tenant : Tenant :=
  { id := 5, slug := "acme", name := "Acme", subscription_plan := Plan.pro,
    note_limit := -1, is_active := true }

/-- C5 witness: upgrading the already-pro tenant succeeds with the `-1`
sentinel and an unchanged store. -/
theorem C5_upgrade_idempotent_witness :
    TenantService.upgradeSubscription [c5Admin] [c5Tenant] "acme" 1 5 =
      .ok ([c5Tenant],
        { id := 5, slug := "acme", name := "Acme",
          subscription_plan := Plan.pro, note_limit := -1 }) :=
  (C5_upgrade_idempotent [c5Admin] [c5Tenant] "acme" 1 5 c5Admin c5Tenant
    rfl rfl rfl rfl).1

/-- C6: soft delete.  A successful `deleteNote` replaces exactly the
matched (previously non-deleted) record by the same record with the
deleted flag set (and the refreshed mutation timestamp) — the record is
never physically removed, the store keeps its length; and on a note whose
deleted flag is already set (ids unique in the store), a second
`deleteNote` on the same id answers `NOTE.NOT_FOUND` and leaves the store
unchanged. -/
theorem C6_soft_delete
    (store : List Note) (noteId T : Nat) (uid : Option Nat) (now : Nat) :
    (∀ store', NotesService.deleteNote store noteId T uid now =
        (.ok (), store') →
      ∃ l₁ m l₂, store = l₁ ++ m :: l₂ ∧ m.is_deleted = false ∧
        store' = l₁ ++ { m with is_deleted := true, updated_at := now } :: l₂ ∧
        store'.length = store.length) ∧
    (∀ N ∈ store, N.is_deleted = true → N.id = noteId →
      (∀ m ∈ store, m.id = noteId → m = N) →
      NotesService.deleteNote store noteId T uid now =
        (.error .notFound, store)) := by
  constructor
  · intro store' h
    unfold NotesService.deleteNote at h
    cases hf : StoreOps.findOneAndUpdate (noteQueryMatches noteId T uid)
        (fun n => { n with is_deleted := true, updated_at := now }) store with
    | none => rw [hf] at h; simp at h
    | some v =>
      obtain ⟨m', st'⟩ := v
      rw [hf] at h
      simp only [Prod.mk.injEq] at h
      obtain ⟨l₁, x, l₂, hl, hp, -, hst⟩ := StoreOps.findOneAndUpdate_eq_some hf
      refine ⟨l₁, x, l₂, hl, ?_, ?_, ?_⟩
      · simp only [noteQueryMatches, Bool.and_eq_true, beq_iff_eq] at hp
        exact hp.1.2
      · rw [← h.2, hst]
      · rw [← h.2, hst, hl]
        simp
  · intro N hmem hdel hid huniq
    have hq : ∀ m ∈ store, noteQueryMatches noteId T uid m = false := by
      intro m hm
      rw [Bool.eq_false_iff]
      intro hp
      simp only [noteQueryMatches, Bool.and_eq_true, beq_iff_eq] at hp
      have hmn := huniq m hm hp.1.1.1
      have hmdel := hp.1.2
      rw [hmn, hdel] at hmdel
      simp at hmdel
    have hnone := StoreOps.findOneAndUpdate_eq_none
      (f := fun n => { n with is_deleted := true, updated_at := now }) hq
    simp [NotesService.deleteNote, hnone]

/-- An already soft-deleted note, witnessing C6. -/
def c6DelNote : Note :=
  { id := 4, tenant_id := 1, user_id := 2, title := "t", content := "c",
    tags := [], is_archived := false, is_deleted := true,
    created_at := 1, updated_at := 1 }

/-- C6 witness: a second delete of the already-deleted note 4 answers
`NOT_FOUND` and changes nothing. -/
theorem C6_soft_delete_witness :
    NotesService.deleteNote [c6DelNote] 4 1 none 9 =
      (.error .notFound, [c6DelNote]) :=
  (C6_soft_delete [c6DelNote] 4 1 none 9).2 c6DelNote
    (List.mem_singleton.mpr rfl) rfl rfl
    (fun m hm _ => List.mem_singleton.mp hm)

/-- C7 counterexample: a header using a non-bearer scheme (`Basic abc`)
is answered with the invalid-token error `AUTH.TOKEN_INVALID`, not the
missing-token error `AUTH.TOKEN_REQUIRED` that the claim assigns to a
malformed scheme. -/
theorem C7_nonbearer_scheme_counterexample :
    Auth.authenticate (fun _ => none) [] [] (some "Basic abc") =
      .error AuthErr.tokenInvalid ∧
    AuthErr.tokenInvalid ≠ AuthErr.tokenRequired := by
  exact ⟨rfl, by decide⟩

/-- C7 (amended): an absent (or empty, which JS treats as absent)
authorization header fails with the missing-token error
`AUTH.TOKEN_REQUIRED`; a present header that does not use the bearer
scheme fails with `AUTH.TOKEN_INVALID` — the same error kind as a token
whose verification fails — and the missing-token error is distinct from
the invalid-token error. -/
theorem C7_auth_error_mapping (verify : String → Option Claims)
    (users : List User) (tenants : List Tenant) :
    (Auth.authenticate verify users tenants none = .error .tokenRequired) ∧
    (Auth.authenticate verify users tenants (some "") =
      .error .tokenRequired) ∧
    (∀ h : String, (h == "") = false →
      prefAux "Bearer ".data h.data = false →
      Auth.authenticate verify users tenants (some h) =
        .error .tokenInvalid) ∧
    (∀ h : String, (h == "") = false →
      prefAux "Bearer ".data h.data = true →
      verify (String.mk (h.data.drop 7)) = none →
      Auth.authenticate verify users tenants (some h) =
        .error .tokenInvalid) ∧
    AuthErr.tokenRequired ≠ AuthErr.tokenInvalid := by
  refine ⟨rfl, rfl, ?_, ?_, by decide⟩
  · intro h h0 hb
    simp [Auth.authenticate, Jwt.extractTokenFromHeader, h0, hb]
  · intro h h0 hb hv
    simp [Auth.authenticate, Jwt.extractTokenFromHeader, h0, hb, hv]

/-- C7 witness: a `Token xyz` header (wrong scheme) yields the
invalid-token error. -/
theorem C7_auth_error_mapping_witness :
    Auth.authenticate (fun _ => none) [] [] (some "Token xyz") =
      .error AuthErr.tokenInvalid :=
  (C7_auth_error_mapping (fun _ => none) [] []).2.2.1 "Token xyz" rfl rfl

/-- C8 (amended): every listing result is ordered by creation time, most
recent first — the `{created_at: -1}` sort is the only ordering the code
requests, with no secondary key. -/
theorem C8_listing_sorted_desc (store : List Note) (T : Nat)
    (o : ListOptions) :
    (NotesService.getNotes store T o).Pairwise
      (fun a b => b.created_at ≤ a.created_at) := by
  have hs := List.sorted_insertionSort createdDesc
    (store.filter (listQueryMatches T o))
  unfold NotesService.getNotes
  exact List.Pairwise.sublist
    ((List.take_sublist _ _).trans (List.drop_sublist _ _)) hs

/-- First of two distinct notes sharing a creation timestamp. -/
def c8a : Note :=
  { id := 1, tenant_id := 1, user_id := 1, title := "a", content := "a",
    tags := [], is_archived := false, is_deleted := false,
    created_at := 5, updated_at := 5 }

/-- Second of two distinct notes sharing a creation timestamp. -/
def c8b : Note :=
  { id := 2, tenant_id := 1, user_id := 1, title := "b", content := "b",
    tags := [], is_archived := false, is_deleted := false,
    created_at := 5, updated_at := 5 }

/-- C8 counterexample: the two stores holding the same two notes with
equal `created_at` in the two insertion orders list them in different
orders, so the order of equal-timestamp notes is NOT determined by id as
a secondary key — it depends on the stored order, and pagination over
ties is not deterministic in the claimed sense. -/
theorem C8_no_id_tiebreak_counterexample :
    c8a.created_at = c8b.created_at ∧ c8a.id ≠ c8b.id ∧
    NotesService.getNotes [c8a, c8b] 1 {} = [c8a, c8b] ∧
    NotesService.getNotes [c8b, c8a] 1 {} = [c8b, c8a] := by
  refine ⟨rfl, by decide, ?_, ?_⟩ <;> rfl

/-- C9 counterexample: a requested page size of 500 is NOT clamped to 100
— the route handler's `parseInt(req.query.limit) || 10` uses the value
as-is, and `paginationValidation` rejects the request with a 400
validation failure, so no listing with an effective size in [1,100] is
produced for it. -/
theorem C9_no_clamping_counterexample :
    Routes.listNotesHandler [] 1 Role.admin 1 none (some 500) "" false =
      .error Routes.HandlerErr.validationFailed ∧
    Routes.parseIntOrDefault 10 (some 500) = 500 :=
  ⟨rfl, rfl⟩

/-- C9 (amended): when `paginationValidation` passes, the effective
pagination parameters satisfy page ≥ 1 and page size in [1,100], with
defaults page = 1 and size = 10 when absent, and the handler runs the
listing with exactly those options; out-of-range *requested* values are
rejected by validation (see the counterexample), not clamped. -/
theorem C9_pagination_bounds (pageQ limitQ : Option Int)
    (hok : Routes.paginationValidationOk pageQ limitQ = true) :
    1 ≤ Routes.parseIntOrDefault 1 pageQ ∧
    1 ≤ Routes.parseIntOrDefault 10 limitQ ∧
    Routes.parseIntOrDefault 10 limitQ ≤ 100 ∧
    (pageQ = none → Routes.parseIntOrDefault 1 pageQ = 1) ∧
    (limitQ = none → Routes.parseIntOrDefault 10 limitQ = 10) ∧
    (∀ store T role uid search archived,
      Routes.listNotesHandler store T role uid pageQ limitQ search archived =
        .ok (NotesService.getNotes store T
          (Routes.routerListOptions pageQ limitQ search archived role uid))) := by
  have hok' := hok
  simp only [Routes.paginationValidationOk, Bool.and_eq_true] at hok'
  obtain ⟨hp, hl⟩ := hok'
  refine ⟨?_, ?_, ?_, ?_, ?_, ?_⟩
  · cases pageQ with
    | none => simp [Routes.parseIntOrDefault]
    | some p =>
      simp only [decide_eq_true_eq] at hp
      have hpne : (p == 0) = false := by simp; omega
      simpa [Routes.parseIntOrDefault, hpne] using hp
  · cases limitQ with
    | none => simp [Routes.parseIntOrDefault]
    | some l =>
      simp only [Bool.and_eq_true, decide_eq_true_eq] at hl
      have hlne : (l == 0) = false := by simp; omega
      simpa [Routes.parseIntOrDefault, hlne] using hl.1
  · cases limitQ with
    | none => simp [Routes.parseIntOrDefault]
    | some l =>
      simp only [Bool.and_eq_true, decide_eq_true_eq] at hl
      have hlne : (l == 0) = false := by simp; omega
      simpa [Routes.parseIntOrDefault, hlne] using hl.2
  · intro h
    subst h
    rfl
  · intro h
    subst h
    rfl
  · intro store T role uid search archived
    simp [Routes.listNotesHandler, hok]

/-- C9 witness: a request for page 2 and size 50 passes validation and
keeps its values (in range, not defaulted). -/
theorem C9_pagination_bounds_witness :
    Routes.parseIntOrDefault 10 (some 50) ≤ 100 :=
  (C9_pagination_bounds (some 2) (some 50) (by decide)).2.2.1

/-- C10: email uniqueness is global, not per-tenant.  Under the unique
index the user schema declares on `email` alone, any two distinct stored
users — in the same or in different tenants — have different emails, and
`AuthService.login`, which resolves the account by email with no tenant
qualifier, selects at most one account: any stored user carrying the
found user's email is the found user. -/
theorem C10_email_global_uniqueness (users : List User)
    (huniq : emailGloballyUnique users) :
    (∀ u ∈ users, ∀ v ∈ users, u ≠ v → u.email ≠ v.email) ∧
    (∀ e u, AuthService.login users e = some u →
      u ∈ users ∧ ∀ v ∈ users, v.email = u.email → v = u) := by
  have hforall := List.Pairwise.forall
    (R := fun u v : User => u.email ≠ v.email)
    (fun _ _ hab => hab.symm) huniq
  constructor
  · intro u hu v hv hne
    exact hforall hu hv hne
  · intro e u hlogin
    have hmem : u ∈ users := List.mem_of_find?_eq_some hlogin
    refine ⟨hmem, ?_⟩
    intro v hv hemail
    by_contra hne
    exact hforall hv hmem hne hemail

/-- The acme admin, witnessing C10. -/
def c10u1 : User :=
  { id := 1, tenant_id := 1, email := "admin@acme.test", role := Role.admin,
    is_active := true }

/-- The globex admin (a different tenant), witnessing C10. -/
def c10u2 : User :=
  { id := 2, tenant_id := 2, email := "admin@globex.test",
    role := Role.admin, is_active := true }

/-- C10 witness: the two cross-tenant accounts have distinct emails. -/
theorem C10_email_global_uniqueness_witness :
    c10u1.email ≠ c10u2.email :=
  (C10_email_global_uniqueness [c10u1, c10u2]
      (by unfold emailGloballyUnique; decide)).1
    c10u1 (by simp) c10u2 (by simp) (by decide)
